import Mathlib

/-!
Verification development for the yoloflow project-configuration core.

This file gives a shallow embedding, in Lean 4, of the parts of the
repository that the checked claims are about:

* `src/yoloflow/model/project/project_config.py` (`ProjectConfig`)
* `src/yoloflow/model/project/project_model_manager.py` (`ProjectModelManager`)
* `src/yoloflow/model/project/project_model_info.py` (`ProjectModelInfo`)
* `src/yoloflow/model/dataset_manager.py` (`DatasetManager`)
* `src/yoloflow/model/project/plan_context.py` (`PlanContext`)
* `src/yoloflow/model/project/project_plan_manager.py` (`ProjectPlanManager`)
* `src/yoloflow/model/start_up/model_selector.py` (`ModelSelector`)
* the enums under `src/yoloflow/model/enums/`

Filesystem state is made explicit: a directory is modelled by the list of
file (or subdirectory) names it contains, and each Python method that
touches the disk becomes a pure function from the old state to the new
state together with its return value.  I/O actions such as `config.save()`
are recorded as a `Bool` flag ("did this call persist the config") rather
than performed.  Nondeterministic inputs of the original code
(`datetime.now()`, `uuid.uuid4()`) are passed in as explicit arguments.
Python `set` iteration order is unspecified; the embedding iterates sets
in first-occurrence order of the underlying list, and every theorem proved
below is insensitive to that order.  Python floats are modelled as exact
rationals (`Rat`); the TOML writer/reader round-trips them exactly.
-/

namespace YoloFlow

/-- Task types, from `enums/task_type.py`. -/
inductive TaskType where
  | classification
  | detection
  | segmentation
  | instance_segmentation
  | keypoint
  | oriented_detection
deriving DecidableEq, Repr

/-- The `.value` string of a `TaskType` member. -/
def TaskType.value : TaskType → String
  | .classification => "classification"
  | .detection => "detection"
  | .segmentation => "segmentation"
  | .instance_segmentation => "instance_segmentation"
  | .keypoint => "keypoint"
  | .oriented_detection => "oriented_detection"

/-- The `TaskType(str)` enum constructor: returns the member whose value
matches, or fails (Python raises `ValueError`). -/
def TaskType.parse : String → Option TaskType
  | "classification" => some .classification
  | "detection" => some .detection
  | "segmentation" => some .segmentation
  | "instance_segmentation" => some .instance_segmentation
  | "keypoint" => some .keypoint
  | "oriented_detection" => some .oriented_detection
  | _ => none

/-- Dataset types, from `enums/dataset_type.py` (same six values as
`TaskType`). -/
inductive DatasetType where
  | classification
  | detection
  | segmentation
  | instance_segmentation
  | keypoint
  | oriented_detection
deriving DecidableEq, Repr

/-- The `DatasetType(task_type.value)` conversion used by the managers. -/
def DatasetType.ofTask : TaskType → DatasetType
  | .classification => .classification
  | .detection => .detection
  | .segmentation => .segmentation
  | .instance_segmentation => .instance_segmentation
  | .keypoint => .keypoint
  | .oriented_detection => .oriented_detection

/-- Dataset targets for plan bindings, from `enums/dataset_target.py`. -/
inductive DatasetTarget where
  | train
  | val
  | test
  | mixed
  | unused
deriving DecidableEq, Repr

/-- The `.value` string of a `DatasetTarget` member. -/
def DatasetTarget.value : DatasetTarget → String
  | .train => "train"
  | .val => "val"
  | .test => "test"
  | .mixed => "mixed"
  | .unused => "unused"

/-- The `DatasetTarget(str)` enum constructor. -/
def DatasetTarget.parse : String → Option DatasetTarget
  | "train" => some .train
  | "val" => some .val
  | "test" => some .test
  | "mixed" => some .mixed
  | "unused" => some .unused
  | _ => none

/-- Plan status, from `enums/plan_status.py`. -/
inductive PlanStatus where
  | pending
  | running
  | completed
  | failed
deriving DecidableEq, Repr

/-- Scalar TOML/config values.  The configuration tree stores values of
Python type `Any`; no claim inspects the payload of such a value, so the
embedding restricts them to TOML scalars (strings, integers, floats as
exact rationals, booleans). -/
inductive ConfigValue where
  | s : String → ConfigValue
  | i : Int → ConfigValue
  | f : Rat → ConfigValue
  | b : Bool → ConfigValue
deriving DecidableEq, Repr

/-- `ProjectModelInfo` from `project_model_info.py`.  The dataclass
annotates `parameters` as `int`, but every call site in the repository
passes a string (for example `parameters=""` in
`ProjectModelManager.get_pretrained_models`), so the field is modelled as
a string. -/
structure ProjectModelInfo where
  name : String
  filename : String
  description : String
  parameters : String
  task_type : TaskType
  source : String
deriving DecidableEq, Repr

/-- `DatasetInfo` from `dataset_info.py`. -/
structure DatasetInfo where
  name : String
  path : String
  dataset_type : DatasetType
  description : String
deriving DecidableEq, Repr

/-- `PlanInfo` from `plan_info.py` (the lightweight per-plan index record
stored in the config document). -/
structure PlanInfo where
  plan_id : String
  name : String
  file_path : String
  created_at : String
  status : PlanStatus
deriving DecidableEq, Repr

/-- The `[project]` section of `yoloflow.toml`. -/
structure ProjectSection where
  name : String
  task_type : TaskType
  created_at : String
  description : String
deriving DecidableEq, Repr

/-- The `[datasets]` section.  Python stores `current` as a possibly
missing key whose value may be `None`, `""`, or a name; the getter maps
all of the first three to "unset", so the embedding collapses them to the
empty string. -/
structure DatasetsSection where
  available : List String
  current : String
  detailed : List DatasetInfo
deriving DecidableEq, Repr

/-- The `[models]` section. -/
structure ModelsSection where
  available : List String
  detailed : List ProjectModelInfo
deriving DecidableEq, Repr

/-- The `[plans]` section. -/
structure PlansSection where
  available : List String
  detailed : List PlanInfo
deriving DecidableEq, Repr

/-- The `[training]` section: a list of history records (loose
string-keyed tables). -/
structure TrainingSection where
  history : List (List (String × ConfigValue))
deriving DecidableEq, Repr

/-- The in-memory configuration document (`ProjectConfig._config_data`).
Each top-level section may be absent, exactly as a key may be absent from
the Python dict. -/
structure ConfigData where
  project : Option ProjectSection
  datasets : Option DatasetsSection
  models : Option ModelsSection
  plans : Option PlansSection
  training : Option TrainingSection
  custom_fields : Option (List (String × String))
deriving DecidableEq, Repr

/-- `ProjectConfig._create_default_config`.  `datetime.now().isoformat()`
is passed in as `now`. -/
def createDefaultConfig (now : String) : ConfigData where
  project := some { name := "", task_type := .detection, created_at := now, description := "" }
  datasets := some { available := [], current := "", detailed := [] }
  models := some { available := [], detailed := [] }
  plans := some { available := [], detailed := [] }
  training := some { history := [] }
  custom_fields := some []

/-- `ProjectConfig._load_config`: if the config file exists its parsed
document is used verbatim, otherwise the default document is created and
saved.  The input is the parsed on-disk document (or `none` when the file
does not exist); the returned `Bool` records whether `save()` ran. -/
def loadConfig (file : Option ConfigData) (now : String) : ConfigData × Bool :=
  match file with
  | some d => (d, false)
  | none => (createDefaultConfig now, true)

/-- The invariant claimed by the spec: the document contains all of the
top-level sections (project, datasets, models, plans, training,
custom_fields). -/
def ConfigData.hasAllSections (c : ConfigData) : Prop :=
  c.project.isSome ∧ c.datasets.isSome ∧ c.models.isSome ∧ c.plans.isSome ∧
    c.training.isSome ∧ c.custom_fields.isSome

instance (c : ConfigData) : Decidable c.hasAllSections := by
  unfold ConfigData.hasAllSections; infer_instance

/-- `ProjectConfig.model_details` (reads `models.detailed`, defaulting to
the empty list when the section or key is missing). -/
def ConfigData.model_details (c : ConfigData) : List ProjectModelInfo :=
  match c.models with
  | some ms => ms.detailed
  | none => []

/-- `ProjectConfig.available_models`. -/
def ConfigData.available_models (c : ConfigData) : List String :=
  match c.models with
  | some ms => ms.available
  | none => []

/-- Whether a model record belongs to the pretrained bucket
(`source in ["imported", "project_creation"]`). -/
def ProjectModelInfo.isPretrainedSource (m : ProjectModelInfo) : Bool :=
  m.source = "imported" || m.source = "project_creation"

/-- `ProjectConfig.pretrained_models`: filenames of the detailed records
whose source is `imported` or `project_creation`. -/
def ConfigData.pretrained_models (c : ConfigData) : List String :=
  (c.model_details.filter (fun m => m.isPretrainedSource)).map (fun m => m.filename)

/-- `ProjectConfig.add_model`: append the filename to `models.available`
if absent, drop every detailed record with the same filename, and append
the new record.  Creates the `models` section if missing. -/
def ConfigData.add_model (c : ConfigData) (info : ProjectModelInfo) : ConfigData :=
  let ms := match c.models with
    | some ms => ms
    | none => { available := [], detailed := [] }
  let avail := if ms.available.contains info.filename then ms.available
               else ms.available ++ [info.filename]
  let detailed := (ms.detailed.filter (fun m => m.filename ≠ info.filename)) ++ [info]
  { c with models := some { available := avail, detailed := detailed } }

/-- `ProjectConfig.remove_model`: remove the first occurrence of the
filename from `models.available` and every detailed record with that
filename.  No-op when the `models` section is missing. -/
def ConfigData.remove_model (c : ConfigData) (filename : String) : ConfigData :=
  match c.models with
  | none => c
  | some ms =>
      { c with models := some { available := ms.available.erase filename,
                                detailed := ms.detailed.filter (fun m => m.filename ≠ filename) } }

/-- `ProjectConfig.available_datasets`. -/
def ConfigData.available_datasets (c : ConfigData) : List String :=
  match c.datasets with
  | some ds => ds.available
  | none => []

/-- `ProjectConfig.add_dataset` (the config-level name list).  Python
creates the section as `{"available": [], "current": None}` when missing;
the embedding's fresh section also carries an empty `detailed` list, a
difference that is unobservable to the claims (the manager creates the
section before this method can run on a section-less document). -/
def ConfigData.config_add_dataset (c : ConfigData) (name : String) : ConfigData :=
  let ds := match c.datasets with
    | some ds => ds
    | none => { available := [], current := "", detailed := [] }
  if ds.available.contains name then { c with datasets := some ds }
  else { c with datasets := some { ds with available := ds.available ++ [name] } }

/-- `ProjectConfig.remove_dataset`: if the name is in the available list,
remove its first occurrence and clear `current` when it pointed at the
removed name. -/
def ConfigData.config_remove_dataset (c : ConfigData) (name : String) : ConfigData :=
  match c.datasets with
  | none => c
  | some ds =>
      if ds.available.contains name then
        { c with datasets := some { ds with
            available := ds.available.erase name,
            current := if ds.current = name then "" else ds.current } }
      else c

/-- The `detailed` dataset list as read by `DatasetManager`
(`_config_data.get("datasets", {}).get("detailed", [])`). -/
def ConfigData.datasets_detailed (c : ConfigData) : List DatasetInfo :=
  match c.datasets with
  | some ds => ds.detailed
  | none => []

/-- The assignment `_config_data["datasets"]["detailed"] = l` performed by
`DatasetManager`.  Python raises `KeyError` when the `datasets` section is
missing; `DatasetManager.__init__` guarantees the section exists, and
every theorem below assumes it, so the missing-section branch (which
creates the section) is never exercised. -/
def ConfigData.set_datasets_detailed (c : ConfigData) (l : List DatasetInfo) : ConfigData :=
  match c.datasets with
  | some ds => { c with datasets := some { ds with detailed := l } }
  | none => { c with datasets := some { available := [], current := "", detailed := l } }

/-- `ProjectConfig.add_plan`. -/
def ConfigData.add_plan (c : ConfigData) (info : PlanInfo) : ConfigData :=
  let ps := match c.plans with
    | some ps => ps
    | none => { available := [], detailed := [] }
  let avail := if ps.available.contains info.plan_id then ps.available
               else ps.available ++ [info.plan_id]
  let detailed := (ps.detailed.filter (fun p => p.plan_id ≠ info.plan_id)) ++ [info]
  { c with plans := some { available := avail, detailed := detailed } }

/-- `ProjectConfig.remove_plan`. -/
def ConfigData.remove_plan (c : ConfigData) (plan_id : String) : ConfigData :=
  match c.plans with
  | none => c
  | some ps =>
      { c with plans := some { available := ps.available.erase plan_id,
                               detailed := ps.detailed.filter (fun p => p.plan_id ≠ plan_id) } }

/-- `ProjectConfig.set_custom_field` (stores the value under the key,
creating the section when missing; Python coerces the value through
`str`, so the embedding takes a string). -/
def ConfigData.set_custom_field (c : ConfigData) (key value : String) : ConfigData :=
  let fields := match c.custom_fields with
    | some fs => fs
    | none => []
  let updated := if fields.any (fun kv => kv.1 = key) then
      fields.map (fun kv => if kv.1 = key then (key, value) else kv)
    else fields ++ [(key, value)]
  { c with custom_fields := some updated }

/-- `ProjectConfig.add_training_record` (appends a record to
`training.history`, creating the section when missing; the
timestamp-defaulting is outside the record payload we model). -/
def ConfigData.add_training_record (c : ConfigData) (record : List (String × ConfigValue)) :
    ConfigData :=
  let tr := match c.training with
    | some tr => tr
    | none => { history := [] }
  { c with training := some { history := tr.history ++ [record] } }

/-! ## ModelSelector (`start_up/model_selector.py`) -/

/-- `ModelInfo` from `start_up/model_info.py`.  `supported_tasks` is a
`frozenset`; it is modelled as a list (no claim depends on set
semantics). -/
structure ModelInfo where
  name : String
  filename : String
  parameters : String
  supported_tasks : List TaskType
  description : String
  from_backend : Option String
deriving DecidableEq, Repr

/-- The selector's `_models` list is the whole mutable state the claims
touch; each method becomes a function on that list. -/
def ModelSelector.register_model (models : List ModelInfo) (info : ModelInfo) :
    List ModelInfo :=
  let rest := match models.find? (fun m => m.filename = info.filename) with
    | some m => models.erase m
    | none => models
  rest ++ [info]

/-- `ModelSelector._sync_from_backend_manager`: every model reported by
the backend manager is appended directly to `_models` (the code comments
that backend models "may have the same filename as default models"). -/
def ModelSelector.sync_from_backend_manager (models : List ModelInfo)
    (backend_models : List ModelInfo) : List ModelInfo :=
  models ++ backend_models

/-- Python truthiness of the `from_backend` field (`None` and `""` are
falsy). -/
def ModelInfo.from_backend_truthy (m : ModelInfo) : Bool :=
  match m.from_backend with
  | none => false
  | some s => s ≠ ""

/-- `ModelSelector.refresh_models`: drop the backend-origin entries, then
re-append the current backend models. -/
def ModelSelector.refresh_models (models : List ModelInfo)
    (backend_models : List ModelInfo) : List ModelInfo :=
  ModelSelector.sync_from_backend_manager
    (models.filter (fun m => !m.from_backend_truthy)) backend_models

/-- `ModelSelector.get_model_by_filename`: first entry with the given
filename, if any. -/
def ModelSelector.get_model_by_filename (models : List ModelInfo) (filename : String) :
    Option ModelInfo :=
  models.find? (fun m => m.filename = filename)

/-- `ModelSelector.get_model_count`. -/
def ModelSelector.get_model_count (models : List ModelInfo) : Nat :=
  models.length

/-! ## ProjectModelManager (`project/project_model_manager.py`)

A bucket directory is modelled by the list of filenames it contains
(directory listings contain no duplicate names).  `Path.glob("*.pt")`
keeps exactly the names ending in `".pt"`. -/

/-- Python `str.endswith(suffix)`, computed on the character lists. -/
def pyEndsWith (s suffix : String) : Bool :=
  suffix.data.isSuffixOf s.data

/-- The `*.pt` glob over a directory listing. -/
def globPt (dir : List String) : List String :=
  dir.filter (fun f => pyEndsWith f ".pt")

/-- One step of Python `str.title()`: alphabetic characters are
upper-cased at a word start and lower-cased otherwise (ASCII
approximation of Unicode casing, exact on ASCII filenames). -/
def pyTitleGo : Bool → List Char → List Char
  | _, [] => []
  | prevCased, c :: cs =>
      if c.isAlpha then
        (if prevCased then c.toLower else c.toUpper) :: pyTitleGo true cs
      else
        c :: pyTitleGo false cs

/-- Python `str.title()`. -/
def pyTitle (s : String) : String :=
  ⟨pyTitleGo false s.data⟩

/-- Python `str.replace` on character lists: scan left to right,
replacing non-overlapping occurrences of `pat` by `rep`.  The `fuel`
argument (instantiated with the input length) only makes the recursion
structural; every step consumes at least one character when `pat` is
nonempty. -/
def listReplaceGo (pat rep : List Char) : Nat → List Char → List Char
  | _, [] => []
  | 0, s => s
  | fuel + 1, c :: cs =>
      if pat.isPrefixOf (c :: cs) then
        rep ++ listReplaceGo pat rep fuel ((c :: cs).drop pat.length)
      else c :: listReplaceGo pat rep fuel cs

/-- Python `str.replace(pat, rep)` (all occurrences). -/
def pyReplace (s pat rep : String) : String :=
  ⟨listReplaceGo pat.data rep.data s.data.length s.data⟩

/-- The display-name derivation
`model.replace(".pt", "").replace("_", " ").title()` used for
auto-discovered models (note: Python `replace` removes every occurrence
of `".pt"`, not only a trailing extension). -/
def deriveModelName (filename : String) : String :=
  pyTitle (pyReplace (pyReplace filename ".pt" "") "_" " ")

/-- The record synthesized by `get_pretrained_models` for a file present
on disk but missing from the config. -/
def autoPretrainedInfo (filename : String) (task_type : TaskType) : ProjectModelInfo where
  name := deriveModelName filename
  filename := filename
  description := "Auto-discovered model: " ++ deriveModelName filename
  parameters := ""
  task_type := task_type
  source := "imported"

/-- The record synthesized by `get_trained_models` for a file present on
disk but missing from the config. -/
def autoTrainedInfo (filename : String) (task_type : TaskType) : ProjectModelInfo where
  name := deriveModelName filename
  filename := filename
  description := "Auto-discovered trained model: " ++ deriveModelName filename
  parameters := ""
  task_type := task_type
  source := "plan_created"

/-- Comparison used by `sorted(result, key=lambda x: x.filename)`. -/
def byFilename (a b : ProjectModelInfo) : Bool :=
  decide (a.filename ≤ b.filename)

/-- The pretrained-bucket `stale` set of the reconciliation
(`config_models - filesystem_models` in `get_pretrained_models`).
Python iterates sets; the embedding uses first-occurrence order (all
proved properties are order-insensitive). -/
def pretrainedStale (cfg : ConfigData) (pretrain_dir : List String) : List String :=
  (cfg.pretrained_models.dedup).filter
    (fun m => !((globPt pretrain_dir).dedup).contains m)

/-- The pretrained-bucket `undeclared` set
(`filesystem_models - config_models` in `get_pretrained_models`). -/
def pretrainedUndeclared (cfg : ConfigData) (pretrain_dir : List String) : List String :=
  ((globPt pretrain_dir).dedup).filter
    (fun m => !(cfg.pretrained_models.dedup).contains m)

/-- `ProjectModelManager.get_pretrained_models`.  Arguments: the config
document, the project task type, and the `pretrain/` directory listing.
Returns the updated config, whether `config.save()` ran, and the returned
list. -/
def ProjectModelManager.get_pretrained_models (cfg : ConfigData) (task_type : TaskType)
    (pretrain_dir : List String) : ConfigData × Bool × List ProjectModelInfo :=
  let filesystem_models := (globPt pretrain_dir).dedup
  let stale := pretrainedStale cfg pretrain_dir
  let cfg1 := stale.foldl (fun c m => c.remove_model m) cfg
  let undeclared := pretrainedUndeclared cfg pretrain_dir
  let cfg2 := undeclared.foldl (fun c m => c.add_model (autoPretrainedInfo m task_type)) cfg1
  let didSave := !stale.isEmpty || !undeclared.isEmpty
  let result := cfg2.model_details.filter
    (fun m => m.isPretrainedSource && filesystem_models.contains m.filename)
  (cfg2, didSave, result.mergeSort byFilename)

/-- The trained-bucket entries found both in config and on disk (the
`result` list of `get_trained_models` before auto-discovery). -/
def trainedPresent (cfg : ConfigData) (model_dir : List String) : List ProjectModelInfo :=
  cfg.model_details.filter
    (fun m => m.source = "plan_created" && ((globPt model_dir).dedup).contains m.filename)

/-- The trained-bucket `undeclared` set
(`filesystem_models - config_trained_models` in `get_trained_models`). -/
def trainedUndeclared (cfg : ConfigData) (model_dir : List String) : List String :=
  ((globPt model_dir).dedup).filter
    (fun m => !(((trainedPresent cfg model_dir).map (fun x => x.filename)).dedup).contains m)

/-- `ProjectModelManager.get_trained_models`.  Arguments: the config
document, the project task type, and the `model/` directory listing.
Stale `plan_created` entries are *not* removed here (compare
`sync_trained_models`). -/
def ProjectModelManager.get_trained_models (cfg : ConfigData) (task_type : TaskType)
    (model_dir : List String) : ConfigData × Bool × List ProjectModelInfo :=
  let result0 := trainedPresent cfg model_dir
  let undeclared := trainedUndeclared cfg model_dir
  let step := fun (p : ConfigData × List ProjectModelInfo) (m : String) =>
    (p.1.add_model (autoTrainedInfo m task_type), p.2 ++ [autoTrainedInfo m task_type])
  let folded := undeclared.foldl step (cfg, result0)
  (folded.1, !undeclared.isEmpty, folded.2.mergeSort byFilename)

/-- The trained-bucket `stale` set of `_sync_trained_models`
(`config_models - filesystem_models` over `plan_created` entries). -/
def trainedStale (cfg : ConfigData) (model_dir : List String) : List String :=
  (((cfg.model_details.filter (fun m => m.source = "plan_created")).map
      (fun m => m.filename)).dedup).filter
    (fun m => !((globPt model_dir).dedup).contains m)

/-- `ProjectModelManager._sync_trained_models` (run once from
`__init__`): removes the `plan_created` config entries whose backing file
is missing from `model/`. -/
def ProjectModelManager.sync_trained_models (cfg : ConfigData) (model_dir : List String) :
    ConfigData × Bool :=
  let stale := trainedStale cfg model_dir
  (stale.foldl (fun c m => c.remove_model m) cfg, !stale.isEmpty)

/-- The target filename chosen by `add_pretrained_model` /
`add_trained_model`: the custom filename with `".pt"` appended when
missing, else the source file's name. -/
def targetModelName (source_name : String) (filename : Option String) : String :=
  match filename with
  | some f => if pyEndsWith f ".pt" then f else f ++ ".pt"
  | none => source_name

/-- `ProjectModelManager.add_pretrained_model`.  `source_exists` stands
for `source_path.exists()` and `source_name` for `source_path.name`; the
file copy becomes appending the target name to the `pretrain/` listing.
Returns the updated config, the updated listing, and the result
(`ProjectModelInfo` on success, the raised error otherwise). -/
def ProjectModelManager.add_pretrained_model (cfg : ConfigData) (proj_task : TaskType)
    (pretrain_dir : List String) (source_exists : Bool) (source_name : String)
    (model_name description parameters : String) (task_type : Option TaskType)
    (filename : Option String) :
    ConfigData × List String × Except String ProjectModelInfo :=
  if !source_exists then (cfg, pretrain_dir, .error "Source model file not found")
  else
    let target_name := targetModelName source_name filename
    if pretrain_dir.contains target_name then
      (cfg, pretrain_dir, .error "Pretrained model already exists")
    else
      let info : ProjectModelInfo :=
        { name := model_name, filename := target_name, description := description,
          parameters := parameters,
          task_type := match task_type with | some t => t | none => proj_task,
          source := "imported" }
      (cfg.add_model info, pretrain_dir ++ [target_name], .ok info)

/-- `ProjectModelManager.add_trained_model` (same shape as the pretrained
variant, targeting `model/`; on success the code returns the filename). -/
def ProjectModelManager.add_trained_model (cfg : ConfigData) (proj_task : TaskType)
    (model_dir : List String) (source_exists : Bool) (source_name : String)
    (plan_name model_name description parameters : String) (filename : Option String) :
    ConfigData × List String × Except String String :=
  if !source_exists then (cfg, model_dir, .error "Source model file not found")
  else
    let target_name := targetModelName source_name filename
    if model_dir.contains target_name then
      (cfg, model_dir, .error "Trained model already exists")
    else
      let info : ProjectModelInfo :=
        { name := model_name, filename := target_name,
          description := if description = "" then "Model trained from plan: " ++ plan_name
                         else description,
          parameters := parameters, task_type := proj_task, source := "plan_created" }
      (cfg.add_model info, model_dir ++ [target_name], .ok target_name)

/-- `ProjectModelManager.remove_pretrained_model`: if a file with the
given name exists in `pretrain/`, delete it, remove the config record and
save, returning `True`; otherwise return `False` without touching
anything. -/
def ProjectModelManager.remove_pretrained_model (cfg : ConfigData)
    (pretrain_dir : List String) (model_name : String) :
    ConfigData × List String × Bool :=
  if pretrain_dir.contains model_name then
    (cfg.remove_model model_name, pretrain_dir.erase model_name, true)
  else (cfg, pretrain_dir, false)

/-! ## DatasetManager (`dataset_manager.py`)

The dataset area of the filesystem is modelled by the list of
project-relative dataset paths (such as `"dataset/coco"`) that currently
exist; `shutil.copytree` / `zipfile.extractall` become list updates, and
their possible failure is an explicit `Bool` argument. -/

/-- `DatasetManager.get_dataset`: first detailed record with the given
name. -/
def DatasetManager.get_dataset (cfg : ConfigData) (name : String) : Option DatasetInfo :=
  cfg.datasets_detailed.find? (fun d => d.name = name)

/-- `DatasetManager.add_dataset`: reject duplicates, append the typed
record to `datasets.detailed`, and add the name to the legacy available
list.  The dataset type defaults to the project task type.  Returns the
updated config and the created record (or the raised error). -/
def DatasetManager.add_dataset (cfg : ConfigData) (proj_task : TaskType) (name : String)
    (dataset_type : Option DatasetType) (description : String) :
    ConfigData × Except String DatasetInfo :=
  if (DatasetManager.get_dataset cfg name).isSome then
    (cfg, .error "Dataset already exists")
  else
    let dt := match dataset_type with
      | some t => t
      | none => DatasetType.ofTask proj_task
    let info : DatasetInfo :=
      { name := name, path := "dataset/" ++ name, dataset_type := dt,
        description := description }
    let cfg1 := cfg.set_datasets_detailed (cfg.datasets_detailed ++ [info])
    let cfg2 := if cfg1.available_datasets.contains name then cfg1
                else cfg1.config_add_dataset name
    (cfg2, .ok info)

/-- `DatasetManager.remove_dataset`: look the record up (error when
absent), drop it from the detailed list and the legacy list, and — when
`delete_files` — delete the dataset directory from disk. -/
def DatasetManager.remove_dataset (cfg : ConfigData) (dataset_dirs : List String)
    (name : String) (delete_files : Bool) :
    ConfigData × List String × Except String Unit :=
  match DatasetManager.get_dataset cfg name with
  | none => (cfg, dataset_dirs, .error "Dataset not found")
  | some ds =>
      let cfg1 := cfg.set_datasets_detailed
        (cfg.datasets_detailed.filter (fun d => d.name ≠ name))
      let cfg2 := cfg1.config_remove_dataset name
      let dirs := if delete_files then dataset_dirs.erase ds.path else dataset_dirs
      (cfg2, dirs, .ok ())

/-- `DatasetManager.import_from_folder`.  `source_ok` stands for
"`source_path` exists and is a directory", `copy_fails` makes the
`shutil.copytree` step raise, and `leftover_on_fail` records whether the
failed copy left a partially created target directory behind (the code
does not clean it up in the folder case: the rollback passes
`delete_files=False`). -/
def DatasetManager.import_from_folder (cfg : ConfigData) (dataset_dirs : List String)
    (proj_task : TaskType) (source_ok : Bool) (copy_fails : Bool) (leftover_on_fail : Bool)
    (dataset_name : String) (dataset_type : Option DatasetType) (description : String) :
    ConfigData × List String × Except String DatasetInfo :=
  if !source_ok then (cfg, dataset_dirs, .error "Source folder does not exist")
  else
    match DatasetManager.add_dataset cfg proj_task dataset_name dataset_type description with
    | (cfg1, .error e) => (cfg1, dataset_dirs, .error e)
    | (cfg1, .ok info) =>
        let dirs1 := dataset_dirs.erase info.path
        if copy_fails then
          let dirs_fail := if leftover_on_fail then dirs1 ++ [info.path] else dirs1
          let rolled := DatasetManager.remove_dataset cfg1 dirs_fail dataset_name false
          (rolled.1, rolled.2.1, .error "Failed to copy dataset folder")
        else (cfg1, dirs1 ++ [info.path], .ok info)

/-- `DatasetManager.import_from_zip`.  `zip_ok` stands for "`zip_path`
exists and is a file" and `extract_fails` makes the `extractall` step
raise; the rollback then removes the config entry *and* the partially
extracted directory (`delete_files=True`). -/
def DatasetManager.import_from_zip (cfg : ConfigData) (dataset_dirs : List String)
    (proj_task : TaskType) (zip_ok : Bool) (extract_fails : Bool)
    (dataset_name : String) (dataset_type : Option DatasetType) (description : String) :
    ConfigData × List String × Except String DatasetInfo :=
  if !zip_ok then (cfg, dataset_dirs, .error "ZIP file does not exist")
  else
    match DatasetManager.add_dataset cfg proj_task dataset_name dataset_type description with
    | (cfg1, .error e) => (cfg1, dataset_dirs, .error e)
    | (cfg1, .ok info) =>
        let dirs1 := if dataset_dirs.contains info.path then dataset_dirs
                     else dataset_dirs ++ [info.path]
        if extract_fails then
          let rolled := DatasetManager.remove_dataset cfg1 dirs1 dataset_name true
          (rolled.1, rolled.2.1, .error "Failed to extract ZIP file")
        else (cfg1, dirs1, .ok info)

/-! ## Training plans (`project/plan_context.py`,
`project/project_plan_manager.py`)

The serialized plan document is modelled structurally: each `to_dict`
output becomes a record whose `Option` fields stand for possibly missing
keys, and `tomli_w.dump` followed by `tomllib.load` is the identity on
such documents. -/

/-- `TrainingParameters` from `training_parameters.py`. -/
structure TrainingParameters where
  epochs : Int
  learning_rate : Rat
  input_size : Int
  batch_size : Int
  extra_params : List (String × ConfigValue)
deriving DecidableEq, Repr

/-- The default `TrainingParameters()` (0.01 as an exact rational). -/
def TrainingParameters.default : TrainingParameters :=
  { epochs := 100, learning_rate := 1 / 100, input_size := 640, batch_size := 16,
    extra_params := [] }

/-- The dict produced by `TrainingParameters.to_dict` (every key may be
missing in a hand-written file, hence the `Option` fields). -/
structure TrainingDict where
  epochs : Option Int
  learning_rate : Option Rat
  input_size : Option Int
  batch_size : Option Int
  extra_params : Option (List (String × ConfigValue))
deriving DecidableEq, Repr

/-- `TrainingParameters.to_dict`. -/
def TrainingParameters.to_dict (p : TrainingParameters) : TrainingDict :=
  { epochs := some p.epochs, learning_rate := some p.learning_rate,
    input_size := some p.input_size, batch_size := some p.batch_size,
    extra_params := some p.extra_params }

/-- `TrainingParameters.from_dict` (each key falls back to the dataclass
default). -/
def TrainingParameters.from_dict (d : TrainingDict) : TrainingParameters :=
  { epochs := d.epochs.getD 100, learning_rate := d.learning_rate.getD (1 / 100),
    input_size := d.input_size.getD 640, batch_size := d.batch_size.getD 16,
    extra_params := d.extra_params.getD [] }

/-- `ValidationParameters` from `validation_parameters.py`. -/
structure ValidationParameters where
  confidence_threshold : Rat
  iou_threshold : Rat
deriving DecidableEq, Repr

/-- The default `ValidationParameters()` (0.25 and 0.45 as exact
rationals). -/
def ValidationParameters.default : ValidationParameters :=
  { confidence_threshold := 1 / 4, iou_threshold := 9 / 20 }

/-- The dict produced by `ValidationParameters.to_dict`. -/
structure ValidationDict where
  confidence_threshold : Option Rat
  iou_threshold : Option Rat
deriving DecidableEq, Repr

/-- `ValidationParameters.to_dict`. -/
def ValidationParameters.to_dict (p : ValidationParameters) : ValidationDict :=
  { confidence_threshold := some p.confidence_threshold,
    iou_threshold := some p.iou_threshold }

/-- `ValidationParameters.from_dict`. -/
def ValidationParameters.from_dict (d : ValidationDict) : ValidationParameters :=
  { confidence_threshold := d.confidence_threshold.getD (1 / 4),
    iou_threshold := d.iou_threshold.getD (9 / 20) }

/-- `TrainingResults` from `training_results.py`. -/
structure TrainingResults where
  best_model : Option String
  latest_model : Option String
deriving DecidableEq, Repr

/-- The dict produced by `TrainingResults.to_dict`: a key is written iff
the field is not `None`, so the dict and the dataclass coincide. -/
structure ResultsDict where
  best_model : Option String
  latest_model : Option String
deriving DecidableEq, Repr

/-- `TrainingResults.to_dict`. -/
def TrainingResults.to_dict (r : TrainingResults) : ResultsDict :=
  { best_model := r.best_model, latest_model := r.latest_model }

/-- `TrainingResults.from_dict`. -/
def TrainingResults.from_dict (d : ResultsDict) : TrainingResults :=
  { best_model := d.best_model, latest_model := d.latest_model }

/-- `DatasetConfig` from `dataset_config.py` (one dataset binding of a
plan). -/
structure DatasetConfig where
  name : String
  target : DatasetTarget
deriving DecidableEq, Repr

/-- The dict produced by `DatasetConfig.to_dict` (`target` serialized as
its value string). -/
structure DatasetDict where
  name : String
  target : String
deriving DecidableEq, Repr

/-- `DatasetConfig.to_dict`. -/
def DatasetConfig.to_dict (d : DatasetConfig) : DatasetDict :=
  { name := d.name, target := d.target.value }

/-- `DatasetConfig.from_dict` (an unknown target string raises
`ValueError` in Python). -/
def DatasetConfig.from_dict (d : DatasetDict) : Except String DatasetConfig :=
  match DatasetTarget.parse d.target with
  | some t => .ok { name := d.name, target := t }
  | none => .error "Invalid plan file format"

/-- The serialized plan document written by `PlanContext.save`:
the `[plan]` table plus the four other sections.  `Option` fields model
keys/sections that may be absent from a file on disk; `save` always
writes all of them except `pretrained_model`, which is written iff it is
not `None`. -/
structure PlanDoc where
  plan_name : Option String
  plan_task_type : Option String
  created_at : Option String
  updated_at : Option String
  pretrained_model : Option String
  training : Option TrainingDict
  validation : Option ValidationDict
  datasets : Option (List DatasetDict)
  results : Option ResultsDict
deriving DecidableEq, Repr

/-- `PlanContext` (`plan_context.py`): the in-memory plan.  `project_path`
is kept as a string. -/
structure PlanContext where
  plan_id : String
  name : String
  project_path : String
  task_type : TaskType
  pretrained_model : Option String
  training_params : TrainingParameters
  validation_params : ValidationParameters
  datasets : List DatasetConfig
  results : TrainingResults
  created_at : String
  updated_at : String
deriving DecidableEq, Repr

/-- `PlanContext.__init__` (fresh defaults; `datetime.now()` passed as
`now`). -/
def PlanContext.init (plan_id name project_path : String) (task_type : TaskType)
    (pretrained_model : Option String) (now : String) : PlanContext :=
  { plan_id := plan_id, name := name, project_path := project_path,
    task_type := task_type, pretrained_model := pretrained_model,
    training_params := TrainingParameters.default,
    validation_params := ValidationParameters.default,
    datasets := [], results := { best_model := none, latest_model := none },
    created_at := now, updated_at := now }

/-- `self.plan_file = self.project_path / "model" / f"{plan_id}.toml"`
from `PlanContext.__init__` — note the directory is `model/`, not
`plan/`. -/
def PlanContext.plan_file (p : PlanContext) : String :=
  p.project_path ++ "/model/" ++ p.plan_id ++ ".toml"

/-- `PlanContext.save`: refresh `updated_at` and serialize.  Returns the
written document together with the updated in-memory plan. -/
def PlanContext.save (p : PlanContext) (now : String) : PlanDoc × PlanContext :=
  let p1 := { p with updated_at := now }
  ({ plan_name := some p1.name, plan_task_type := some p1.task_type.value,
     created_at := some p1.created_at, updated_at := some p1.updated_at,
     pretrained_model := p1.pretrained_model,
     training := some p1.training_params.to_dict,
     validation := some p1.validation_params.to_dict,
     datasets := some (p1.datasets.map DatasetConfig.to_dict),
     results := some p1.results.to_dict }, p1)

/-- The index of the last `'.'` in a list of characters, if any. -/
def lastDotIdx : List Char → Option Nat
  | [] => none
  | c :: cs =>
      match lastDotIdx cs with
      | some i => some (i + 1)
      | none => if c = '.' then some 0 else none

/-- `pathlib.PurePath.stem`: the file name minus its suffix, where the
suffix runs from the last dot provided that dot is neither the first nor
the last character. -/
def fileStem (name : String) : String :=
  let cs := name.data
  match lastDotIdx cs with
  | some i => if 0 < i ∧ i < cs.length - 1 then ⟨cs.take i⟩ else name
  | none => name

/-- The list comprehension
`[DatasetConfig.from_dict(d) for d in data["datasets"]]`: decode each
binding, propagating the first failure. -/
def decodeDatasets : List DatasetDict → Except String (List DatasetConfig)
  | [] => .ok []
  | d :: ds =>
      match DatasetConfig.from_dict d with
      | .error e => .error e
      | .ok c =>
          match decodeDatasets ds with
          | .error e => .error e
          | .ok cs => .ok (c :: cs)

/-- `PlanContext.load_from_file`: parse a plan document.  The plan id is
the file's stem; the caller supplies the file's base name and the project
path (`plan_file.parent.parent`).  Sections absent from the document fall
back to fresh defaults; a missing mandatory `plan` key or an unknown enum
value raises (`ValueError`). -/
def PlanContext.load_from_file (file_name : String) (project_path : String) (doc : PlanDoc)
    (now : String) : Except String PlanContext :=
  match doc.plan_name, doc.plan_task_type with
  | some name, some task_str =>
      match TaskType.parse task_str with
      | none => .error "Invalid plan file format"
      | some tt =>
          let dsDicts := doc.datasets.getD []
          match decodeDatasets dsDicts with
          | .error e => .error e
          | .ok ds =>
              .ok { plan_id := fileStem file_name, name := name,
                    project_path := project_path, task_type := tt,
                    pretrained_model := doc.pretrained_model,
                    training_params :=
                      match doc.training with
                      | some d => TrainingParameters.from_dict d
                      | none => TrainingParameters.default,
                    validation_params :=
                      match doc.validation with
                      | some d => ValidationParameters.from_dict d
                      | none => ValidationParameters.default,
                    datasets := ds,
                    results :=
                      match doc.results with
                      | some d => TrainingResults.from_dict d
                      | none => { best_model := none, latest_model := none },
                    created_at := doc.created_at.getD now,
                    updated_at := doc.updated_at.getD now }
  | _, _ => .error "Invalid plan file format"

/-- `ProjectPlanManager.model_dir = project_path / "model"`: the
directory the plan manager scans for `*.toml` plan files. -/
def ProjectPlanManager.model_dir (project_path : String) : String :=
  project_path ++ "/model"

/-- `ProjectPlanManager._load_all_plans`: parse every `*.toml` file of the
`model/` directory, skipping files that fail to parse.  The input is the
directory listing as (file name, parsed document) pairs. -/
def ProjectPlanManager.load_all_plans (files : List (String × PlanDoc))
    (project_path : String) (now : String) : List PlanContext :=
  (files.filter (fun f => pyEndsWith f.1 ".toml")).foldl
    (fun acc f =>
      match PlanContext.load_from_file f.1 project_path f.2 now with
      | .ok p => acc ++ [p]
      | .error _ => acc) []

/-- `ProjectPlanManager.create_plan`: reject a duplicate name, else build
a fresh plan (`uuid.uuid4()` passed as `new_id`), save it and add it to
the cache.  Returns the updated cache, the written file (name and
document) if any, and the created plan or the raised error. -/
def ProjectPlanManager.create_plan (cache : List PlanContext) (project_path : String)
    (proj_task : TaskType) (new_id now : String) (name : String)
    (pretrained_model : Option String) :
    List PlanContext × Option (String × PlanDoc) × Except String PlanContext :=
  if cache.any (fun p => p.name = name) then
    (cache, none, .error "Plan with this name already exists")
  else
    let plan := PlanContext.init new_id name project_path proj_task pretrained_model now
    let saved := plan.save now
    (cache ++ [saved.2], some (plan.plan_id ++ ".toml", saved.1), .ok saved.2)

/-! ## Fixtures used by concrete witnesses and counterexamples -/

/-- The empty configuration document (a legal parse of an empty TOML
file). -/
def emptyConfig : ConfigData :=
  { project := none, datasets := none, models := none, plans := none,
    training := none, custom_fields := none }

/-- A lingering `imported` record whose backing file is absent. -/
def ghostInfo : ProjectModelInfo :=
  { name := "Ghost", filename := "ghost.pt", description := "", parameters := "",
    task_type := .detection, source := "imported" }

/-- Config owning only the `ghost.pt` pretrained record. -/
def ghostConfig : ConfigData :=
  { emptyConfig with models := some { available := ["ghost.pt"], detailed := [ghostInfo] } }

/-- A stale `plan_created` record used by the C1 counterexample. -/
def ghostTrained : ProjectModelInfo :=
  { name := "Ghost", filename := "ghost.pt", description := "", parameters := "",
    task_type := .detection, source := "plan_created" }

/-- Config holding only the stale trained record. -/
def ghostTrainedConfig : ConfigData :=
  { project := none, datasets := none,
    models := some { available := ["ghost.pt"], detailed := [ghostTrained] },
    plans := none, training := none, custom_fields := none }

/-- Sample dataset record. -/
def cocoInfo : DatasetInfo :=
  { name := "coco", path := "dataset/coco", dataset_type := .detection, description := "" }

/-- Sample config owning the `coco` dataset. -/
def cocoConfig : ConfigData :=
  { emptyConfig with
      datasets := some { available := ["coco"], current := "", detailed := [cocoInfo] } }

/-- Config with an empty (but present) datasets section, as
`DatasetManager.__init__` guarantees. -/
def emptyCfg3 : ConfigData :=
  { project := none, datasets := some { available := [], current := "", detailed := [] },
    models := none, plans := none, training := none, custom_fields := none }

/-- Sample cached plan named `baseline`. -/
def basePlan : PlanContext :=
  PlanContext.init "11111111-2222-3333-4444-555555555555" "baseline" "/proj" .detection none
    "2024-01-01T00:00:00"

/-- Built-in style model used by the C7 scenario. -/
def dupBuiltin : ModelInfo :=
  { name := "YOLO 11 Nano", filename := "yolo11n.pt", parameters := "2.6M",
    supported_tasks := [.detection], description := "built-in", from_backend := none }

/-- Backend-contributed model with the same filename. -/
def dupBackend : ModelInfo :=
  { name := "YOLO 11 Nano (backend)", filename := "yolo11n.pt", parameters := "2.6M",
    supported_tasks := [.detection], description := "backend capability",
    from_backend := some "ultra" }

/-! ## Helper lemmas -/

theorem hasAllSections_iff (c : ConfigData) :
    c.hasAllSections ↔ (c.project.isSome ∧ c.datasets.isSome ∧ c.models.isSome ∧
      c.plans.isSome ∧ c.training.isSome ∧ c.custom_fields.isSome) := Iff.rfl

theorem contains_true_iff (l : List String) (a : String) :
    l.contains a = true ↔ a ∈ l := by
  simp [List.elem_iff]

theorem contains_false_iff (l : List String) (a : String) :
    l.contains a = false ↔ a ∉ l := by
  rw [← Bool.not_eq_true, contains_true_iff]

/-! ## Claim C9 -/

/-- Claim C9, counterexample: `load()` of an existing serialized document
returns it verbatim, so a document missing top-level sections (here: the
empty document, a legal parse of an empty TOML file) still misses them
after loading — the invariant does not hold for every loaded document. -/
theorem claim_C9_counterexample :
    (loadConfig (some emptyConfig) "2024-01-01T00:00:00").1 = emptyConfig ∧
      ¬ emptyConfig.hasAllSections := by
  refine ⟨rfl, ?_⟩
  decide

/-- Claim C9, amended: when `load()` constructs the default document (no
config file on disk) the document contains all six top-level sections,
and every mutation method preserves that property (each one creates at
most the section it touches and leaves the others in place); but `load()`
of an existing serialized document returns it verbatim, without
normalizing missing sections. -/
theorem claim_C9_amended :
    (∀ now, ((loadConfig none now).1).hasAllSections)
    ∧ (∀ d now, loadConfig (some d) now = (d, false))
    ∧ (∀ c : ConfigData, c.hasAllSections →
        (∀ i, (c.add_model i).hasAllSections)
        ∧ (∀ f, (c.remove_model f).hasAllSections)
        ∧ (∀ n, (c.config_add_dataset n).hasAllSections)
        ∧ (∀ n, (c.config_remove_dataset n).hasAllSections)
        ∧ (∀ l, (c.set_datasets_detailed l).hasAllSections)
        ∧ (∀ p, (c.add_plan p).hasAllSections)
        ∧ (∀ pid, (c.remove_plan pid).hasAllSections)
        ∧ (∀ k v, (c.set_custom_field k v).hasAllSections)
        ∧ (∀ r, (c.add_training_record r).hasAllSections)) := by
  refine ⟨fun now => ?_, fun d now => rfl, fun c h => ?_⟩
  · simp [loadConfig, createDefaultConfig, ConfigData.hasAllSections]
  · obtain ⟨p, d, m, pl, tr, cf⟩ := c
    rw [hasAllSections_iff] at h
    obtain ⟨h1, h2, h3, h4, h5, h6⟩ := h
    obtain ⟨p0, rfl⟩ := Option.isSome_iff_exists.1 h1
    obtain ⟨d0, rfl⟩ := Option.isSome_iff_exists.1 h2
    obtain ⟨m0, rfl⟩ := Option.isSome_iff_exists.1 h3
    obtain ⟨pl0, rfl⟩ := Option.isSome_iff_exists.1 h4
    obtain ⟨tr0, rfl⟩ := Option.isSome_iff_exists.1 h5
    obtain ⟨cf0, rfl⟩ := Option.isSome_iff_exists.1 h6
    refine ⟨fun i => ?_, fun f => ?_, fun n => ?_, fun n => ?_, fun l => ?_,
      fun p1 => ?_, fun pid => ?_, fun k v => ?_, fun r => ?_⟩
    · simp [ConfigData.add_model, ConfigData.hasAllSections]
    · simp [ConfigData.remove_model, ConfigData.hasAllSections]
    · simp only [ConfigData.config_add_dataset]
      split <;> simp [ConfigData.hasAllSections]
    · simp only [ConfigData.config_remove_dataset]
      split <;> simp [ConfigData.hasAllSections]
    · simp [ConfigData.set_datasets_detailed, ConfigData.hasAllSections]
    · simp [ConfigData.add_plan, ConfigData.hasAllSections]
    · simp [ConfigData.remove_plan, ConfigData.hasAllSections]
    · simp [ConfigData.set_custom_field, ConfigData.hasAllSections]
    · simp [ConfigData.add_training_record, ConfigData.hasAllSections]

/-- Claim C9, witness for the amended theorem: the default document has
all sections, and a sample mutation keeps them. -/
theorem claim_C9_amended_witness :
    ((loadConfig none "2024-01-01T00:00:00").1).hasAllSections ∧
      ((loadConfig none "2024-01-01T00:00:00").1.config_add_dataset "coco").hasAllSections :=
  ⟨claim_C9_amended.1 "2024-01-01T00:00:00",
    (claim_C9_amended.2.2 _ (claim_C9_amended.1 "2024-01-01T00:00:00")).2.2.1 "coco"⟩

/-! ## Claim C10 -/

/-- Claim C10: when no file with the given name exists in `pretrain/`,
`remove_pretrained_model` returns `False` and leaves both the config
document (including any lingering record with that filename) and the
filesystem untouched. -/
theorem claim_C10 (cfg : ConfigData) (pretrain_dir : List String) (model_name : String)
    (h : model_name ∉ pretrain_dir) :
    ProjectModelManager.remove_pretrained_model cfg pretrain_dir model_name =
      (cfg, pretrain_dir, false) := by
  simp [ProjectModelManager.remove_pretrained_model, h]

/-- Claim C10, witness: removing a missing file from a directory that
does not contain it reports `False` and changes nothing, even though the
config still holds a record under that filename. -/
theorem claim_C10_witness :
    ProjectModelManager.remove_pretrained_model ghostConfig ["other.pt"] "ghost.pt" =
      (ghostConfig, ["other.pt"], false) :=
  claim_C10 ghostConfig ["other.pt"] "ghost.pt" (by decide)

/-! ## Claim C4 -/

/-- Claim C4: adding a dataset whose name already exists, adding a model
whose destination filename already exists in its bucket directory, or
creating a plan whose name already exists among cached plans always
raises, and the state (hence the pre-existing entry) is left exactly as
it was. -/
theorem claim_C4 :
    (∀ cfg tt name dty desc d, DatasetManager.get_dataset cfg name = some d →
        DatasetManager.add_dataset cfg tt name dty desc =
          (cfg, .error "Dataset already exists"))
    ∧ (∀ cfg tt dir src mn desc ps ott fn,
        (targetModelName src fn) ∈ dir →
        ProjectModelManager.add_pretrained_model cfg tt dir true src mn desc ps ott fn =
          (cfg, dir, .error "Pretrained model already exists"))
    ∧ (∀ cfg tt dir src pn mn desc ps fn,
        (targetModelName src fn) ∈ dir →
        ProjectModelManager.add_trained_model cfg tt dir true src pn mn desc ps fn =
          (cfg, dir, .error "Trained model already exists"))
    ∧ (∀ cache pp tt nid now name pm, (∃ p ∈ cache, PlanContext.name p = name) →
        ProjectPlanManager.create_plan cache pp tt nid now name pm =
          (cache, none, .error "Plan with this name already exists")) := by
  refine ⟨fun cfg tt name dty desc d h => ?_, fun cfg tt dir src mn desc ps ott fn h => ?_,
    fun cfg tt dir src pn mn desc ps fn h => ?_, fun cache pp tt nid now name pm h => ?_⟩
  · simp [DatasetManager.add_dataset, h]
  · simp [ProjectModelManager.add_pretrained_model, h]
  · simp [ProjectModelManager.add_trained_model, h]
  · have ha : cache.any (fun p => p.name = name) = true := by
      obtain ⟨p, hp, he⟩ := h
      exact List.any_eq_true.2 ⟨p, hp, by simp [he]⟩
    simp [ProjectPlanManager.create_plan, ha]

/-- Claim C4, witness: each of the four conflict rejections at a concrete
input. -/
theorem claim_C4_witness :
    DatasetManager.add_dataset cocoConfig .detection "coco" none "" =
        (cocoConfig, .error "Dataset already exists")
    ∧ ProjectModelManager.add_pretrained_model emptyConfig .detection ["yolo11n.pt"] true
        "yolo11n.pt" "YOLO11 Nano" "" "" none none =
        (emptyConfig, ["yolo11n.pt"], .error "Pretrained model already exists")
    ∧ ProjectModelManager.add_trained_model emptyConfig .detection ["best.pt"] true
        "best.pt" "baseline" "Best" "" "" none =
        (emptyConfig, ["best.pt"], .error "Trained model already exists")
    ∧ ProjectPlanManager.create_plan [basePlan] "/proj" .detection "new-id"
        "2024-01-02T00:00:00" "baseline" none =
        ([basePlan], none, .error "Plan with this name already exists") :=
  ⟨claim_C4.1 cocoConfig .detection "coco" none "" cocoInfo (by decide),
    claim_C4.2.1 emptyConfig .detection ["yolo11n.pt"] "yolo11n.pt" "YOLO11 Nano" "" "" none
      none (by decide),
    claim_C4.2.2.1 emptyConfig .detection ["best.pt"] "best.pt" "baseline" "Best" "" "" none
      (by decide),
    claim_C4.2.2.2 [basePlan] "/proj" .detection "new-id" "2024-01-02T00:00:00" "baseline"
      none ⟨basePlan, List.mem_singleton.2 rfl, rfl⟩⟩

/-! ## Claim C7 -/

/-- Claim C7, counterexample: `_sync_from_backend_manager` appends
backend models directly, so after the merge the selector holds two
entries with the same filename, the count grows to 2, and
`get_model_by_filename` returns the *old* built-in entry rather than the
backend one. -/
theorem claim_C7_counterexample :
    ModelSelector.sync_from_backend_manager [dupBuiltin] [dupBackend] =
        [dupBuiltin, dupBackend]
    ∧ dupBuiltin.filename = dupBackend.filename
    ∧ dupBuiltin ≠ dupBackend
    ∧ ModelSelector.get_model_count
        (ModelSelector.sync_from_backend_manager [dupBuiltin] [dupBackend]) = 2
    ∧ ModelSelector.get_model_by_filename
        (ModelSelector.sync_from_backend_manager [dupBuiltin] [dupBackend])
        dupBackend.filename = some dupBuiltin := by
  decide

/-- Claim C7, amended: `register_model` alone maintains per-filename
uniqueness — when the list of registered models has pairwise-distinct
filenames, registering any model keeps the filenames distinct, appends
the new model at the end, makes `get_model_by_filename` return it, and
(when the filename was already present) leaves the total count unchanged.
The backend merge (`_sync_from_backend_manager`, hence `refresh_models`)
appends backend models without de-duplication and does not preserve the
invariant (see the counterexample). -/
theorem claim_C7_amended (models : List ModelInfo) (i : ModelInfo)
    (h : (models.map (fun m => m.filename)).Nodup) :
    ((ModelSelector.register_model models i).map (fun m => m.filename)).Nodup
    ∧ (ModelSelector.register_model models i).getLast? = some i
    ∧ ModelSelector.get_model_by_filename (ModelSelector.register_model models i) i.filename
        = some i
    ∧ (∀ m0, ModelSelector.get_model_by_filename models i.filename = some m0 →
        ModelSelector.get_model_count (ModelSelector.register_model models i) =
          ModelSelector.get_model_count models) := by
  unfold ModelSelector.register_model ModelSelector.get_model_by_filename
    ModelSelector.get_model_count
  cases hf : models.find? (fun m => m.filename = i.filename) with
  | none =>
      have hno : ∀ m ∈ models, m.filename ≠ i.filename := by
        intro m hm
        have := List.find?_eq_none.1 hf m hm
        simpa using this
      refine ⟨?_, List.getLast?_concat _, ?_, ?_⟩
      · rw [List.map_append]
        rw [List.nodup_append]
        refine ⟨h, by simp, ?_⟩
        intro a ha hb
        simp only [List.map_cons, List.map_nil, List.mem_singleton] at hb
        obtain ⟨m, hm, rfl⟩ := List.mem_map.1 ha
        exact hno m hm hb
      · rw [List.find?_append, hf]
        simp
      · intro m0 hm0
        exact absurd hm0 (by simp)
  | some m =>
      have hmem : m ∈ models := List.mem_of_find?_eq_some hf
      have hmf : m.filename = i.filename := by simpa using List.find?_some hf
      have hinj := List.inj_on_of_nodup_map h
      have hnd : models.Nodup := List.Nodup.of_map _ h
      have hkey : ∀ g ∈ models.erase m, g.filename ≠ i.filename := by
        intro g hg hgf
        have hg2 : g ∈ models := (List.erase_sublist m models).subset hg
        have hgm : g = m := hinj hg2 hmem (by rw [hgf, hmf])
        have := (hnd.mem_erase_iff).1 hg
        exact this.1 hgm
      refine ⟨?_, List.getLast?_concat _, ?_, ?_⟩
      · rw [List.map_append]
        rw [List.nodup_append]
        refine ⟨((List.erase_sublist m models).map _).nodup h, by simp, ?_⟩
        intro a ha hb
        simp only [List.map_cons, List.map_nil, List.mem_singleton] at hb
        obtain ⟨g, hg, rfl⟩ := List.mem_map.1 ha
        exact hkey g hg hb
      · rw [List.find?_append]
        have : (models.erase m).find? (fun g => g.filename = i.filename) = none := by
          rw [List.find?_eq_none]
          intro g hg
          simpa using hkey g hg
        rw [this]
        simp
      · intro m0 hm0
        rw [List.length_append, List.length_erase_of_mem hmem]
        have hpos : 0 < models.length := List.length_pos_of_mem hmem
        simp [Nat.sub_add_cancel hpos]

/-- Claim C7, witness for the amended theorem: registering a second model
with an already-present filename replaces it — the lookup returns the new
model and the count stays 1. -/
theorem claim_C7_amended_witness :
    ModelSelector.get_model_by_filename
        (ModelSelector.register_model [dupBuiltin] dupBackend) dupBackend.filename =
      some dupBackend
    ∧ ModelSelector.get_model_count (ModelSelector.register_model [dupBuiltin] dupBackend)
        = 1 :=
  ⟨(claim_C7_amended [dupBuiltin] dupBackend (by decide)).2.2.1,
    (claim_C7_amended [dupBuiltin] dupBackend (by decide)).2.2.2 dupBuiltin (by decide)⟩

/-! ## Claim C8 -/

theorem lastDotIdx_append_toml (l : List Char) :
    lastDotIdx (l ++ ['.', 't', 'o', 'm', 'l']) = some l.length := by
  induction l with
  | nil => rfl
  | cons c cs ih => simp [lastDotIdx, ih]

theorem string_data_ne_nil (s : String) (h : s ≠ "") : s.data ≠ [] := by
  intro hnil
  apply h
  cases s with
  | mk data =>
      cases data with
      | nil => rfl
      | cons c cs => simp at hnil

theorem fileStem_append_toml (s : String) (h : s ≠ "") :
    fileStem (s ++ ".toml") = s := by
  have hd : (s ++ ".toml").data = s.data ++ ['.', 't', 'o', 'm', 'l'] := by
    rw [String.data_append]
  have hpos : 0 < s.data.length := List.length_pos.2 (string_data_ne_nil s h)
  have hlt : s.data.length < (s.data ++ ['.', 't', 'o', 'm', 'l']).length - 1 := by
    simp only [List.length_append, List.length_cons, List.length_nil]
    omega
  unfold fileStem
  simp only [hd, lastDotIdx_append_toml]
  rw [if_pos ⟨hpos, hlt⟩]
  rw [List.take_left]

/-- Claim C8, counterexample: plan files are written under the project's
`model/` directory, not under `plan/`: the concrete plan's file path is
`/proj/model/<id>.toml` and differs from `/proj/plan/<id>.toml`. -/
theorem claim_C8_counterexample :
    basePlan.plan_file = "/proj/model/" ++ basePlan.plan_id ++ ".toml"
    ∧ basePlan.plan_file ≠ "/proj/plan/" ++ basePlan.plan_id ++ ".toml" := by
  decide

/-- Claim C8, amended: every plan is persisted as exactly one file named
`<plan_id>.toml`, placed in the project's `model/` directory — the very
directory `ProjectPlanManager` scans on bulk load — and the load-time
plan id (the file stem) recovers the saving plan's id. -/
theorem claim_C8_amended (p : PlanContext) :
    p.plan_file = ProjectPlanManager.model_dir p.project_path ++ "/" ++ p.plan_id ++ ".toml"
    ∧ (p.plan_id ≠ "" → fileStem (p.plan_id ++ ".toml") = p.plan_id) := by
  constructor
  · show p.project_path ++ "/model/" ++ p.plan_id ++ ".toml" =
      p.project_path ++ "/model" ++ "/" ++ p.plan_id ++ ".toml"
    have hlit : "/model" ++ "/" = "/model/" := by decide
    rw [String.append_assoc p.project_path "/model" "/", hlit]
  · exact fun h => fileStem_append_toml _ h

/-- Claim C8, witness for the amended theorem at a concrete plan. -/
theorem claim_C8_amended_witness :
    basePlan.plan_file =
        ProjectPlanManager.model_dir basePlan.project_path ++ "/" ++ basePlan.plan_id
          ++ ".toml"
    ∧ fileStem (basePlan.plan_id ++ ".toml") = basePlan.plan_id :=
  ⟨(claim_C8_amended basePlan).1, (claim_C8_amended basePlan).2 (by decide)⟩

/-! ## Claim C5 -/

theorem taskType_parse_value (t : TaskType) : TaskType.parse t.value = some t := by
  cases t <;> rfl

theorem datasetTarget_parse_value (t : DatasetTarget) :
    DatasetTarget.parse t.value = some t := by
  cases t <;> rfl

theorem datasetConfig_roundtrip (d : DatasetConfig) :
    DatasetConfig.from_dict d.to_dict = .ok d := by
  simp [DatasetConfig.from_dict, DatasetConfig.to_dict, datasetTarget_parse_value]

theorem decodeDatasets_roundtrip (l : List DatasetConfig) :
    decodeDatasets (l.map DatasetConfig.to_dict) = Except.ok l := by
  induction l with
  | nil => rfl
  | cons d ds ih => simp [decodeDatasets, datasetConfig_roundtrip, ih]

/-- Claim C5: saving a plan and loading the written file back (its name
is `<plan_id>.toml`, its directory's parent is the project path) yields a
plan equal to the saved one on every persisted field — only `updated_at`
is refreshed to the save time, and the claim's fields (plan id, name,
task type, pretrained model reference, training parameters, validation
parameters, dataset bindings, results) are all preserved. -/
theorem claim_C5 (p : PlanContext) (now1 now2 : String) (h : p.plan_id ≠ "") :
    PlanContext.load_from_file (p.plan_id ++ ".toml") p.project_path (p.save now1).1 now2 =
      Except.ok { p with updated_at := now1 } := by
  unfold PlanContext.save PlanContext.load_from_file
  simp [taskType_parse_value, decodeDatasets_roundtrip, fileStem_append_toml _ h,
    TrainingParameters.from_dict, TrainingParameters.to_dict,
    ValidationParameters.from_dict, ValidationParameters.to_dict,
    TrainingResults.from_dict, TrainingResults.to_dict]

/-- Claim C5, witness: the round trip at a concrete plan. -/
theorem claim_C5_witness :
    PlanContext.load_from_file (basePlan.plan_id ++ ".toml") basePlan.project_path
        (basePlan.save "2024-01-02T00:00:00").1 "2024-01-03T00:00:00" =
      Except.ok { basePlan with updated_at := "2024-01-02T00:00:00" } :=
  claim_C5 basePlan "2024-01-02T00:00:00" "2024-01-03T00:00:00" (by decide)

/-! ## Claim C3 -/

theorem dataset_add_value
    (p : Option ProjectSection) (av : List String) (cur : String) (det : List DatasetInfo)
    (m : Option ModelsSection) (pl : Option PlansSection) (tr : Option TrainingSection)
    (cf : Option (List (String × String)))
    (tt : TaskType) (name : String) (dty : Option DatasetType) (desc : String)
    (h1 : det.find? (fun x => x.name = name) = none)
    (h2 : name ∉ av) :
    DatasetManager.add_dataset ⟨p, some ⟨av, cur, det⟩, m, pl, tr, cf⟩ tt name dty desc =
      (⟨p, some ⟨av ++ [name], cur,
          det ++ [⟨name, "dataset/" ++ name,
            (match dty with | some t => t | none => DatasetType.ofTask tt), desc⟩]⟩,
        m, pl, tr, cf⟩,
        Except.ok ⟨name, "dataset/" ++ name,
          (match dty with | some t => t | none => DatasetType.ofTask tt), desc⟩) := by
  simp [DatasetManager.add_dataset, DatasetManager.get_dataset, ConfigData.datasets_detailed,
    ConfigData.set_datasets_detailed, ConfigData.available_datasets,
    ConfigData.config_add_dataset, h1, h2]

theorem dataset_remove_added
    (p : Option ProjectSection) (av : List String) (cur : String) (det : List DatasetInfo)
    (m : Option ModelsSection) (pl : Option PlansSection) (tr : Option TrainingSection)
    (cf : Option (List (String × String)))
    (name pth : String) (dt : DatasetType) (desc : String)
    (h1 : det.find? (fun x => x.name = name) = none)
    (h2 : name ∉ av) (h3 : cur ≠ name) (dirs2 : List String) (df : Bool) :
    DatasetManager.remove_dataset
        ⟨p, some ⟨av ++ [name], cur, det ++ [⟨name, pth, dt, desc⟩]⟩, m, pl, tr, cf⟩
        dirs2 name df =
      (⟨p, some ⟨av, cur, det⟩, m, pl, tr, cf⟩,
        if df then dirs2.erase pth else dirs2, Except.ok ()) := by
  have hfind : (det ++ [(⟨name, pth, dt, desc⟩ : DatasetInfo)]).find?
      (fun x => x.name = name) = some ⟨name, pth, dt, desc⟩ := by
    rw [List.find?_append, h1]
    simp
  have hfilter : det.filter (fun x => x.name ≠ name) = det := by
    refine List.filter_eq_self.2 (fun x hx => ?_)
    have := List.find?_eq_none.1 h1 x hx
    simpa using this
  have herase : (av ++ [name]).erase name = av := by
    rw [List.erase_append_right _ h2]
    simp
  have hnm : ∀ a ∈ det, ¬a.name = name := fun x hx => by
    simpa using List.find?_eq_none.1 h1 x hx
  simp [DatasetManager.remove_dataset, DatasetManager.get_dataset,
    ConfigData.datasets_detailed, ConfigData.set_datasets_detailed,
    ConfigData.config_remove_dataset, hfind, hfilter, herase, h3, hnm]
  exact hnm

/-- Claim C3: with a fresh dataset name, a failing copy step of
`import_from_folder` (respectively a failing extraction step of
`import_from_zip`) removes the just-added config entry again, restoring
the config document exactly — so the name is available for reuse — and in
the zip case also deletes the partially extracted directory, restoring
the filesystem; with a duplicate name, both imports are rejected before
any copy or extraction, changing nothing. -/
theorem claim_C3 (ds : DatasetsSection) (cfg : ConfigData) (dirs : List String)
    (tt : TaskType) (name : String) (dty : Option DatasetType) (desc : String)
    (hs : cfg.datasets = some ds) :
    (DatasetManager.get_dataset cfg name = none →
      name ∉ ds.available →
      ds.current ≠ name →
      ("dataset/" ++ name) ∉ dirs →
      (∀ lo, DatasetManager.import_from_folder cfg dirs tt true true lo name dty desc =
        (cfg, if lo then dirs ++ ["dataset/" ++ name] else dirs,
          Except.error "Failed to copy dataset folder"))
      ∧ DatasetManager.import_from_zip cfg dirs tt true true name dty desc =
          (cfg, dirs, Except.error "Failed to extract ZIP file"))
    ∧ (∀ d, DatasetManager.get_dataset cfg name = some d →
        (∀ cfails lo,
          DatasetManager.import_from_folder cfg dirs tt true cfails lo name dty desc =
            (cfg, dirs, Except.error "Dataset already exists"))
        ∧ (∀ efails, DatasetManager.import_from_zip cfg dirs tt true efails name dty desc =
            (cfg, dirs, Except.error "Dataset already exists"))) := by
  obtain ⟨p, d0, m, pl, tr, cf⟩ := cfg
  simp only at hs
  subst hs
  obtain ⟨av, cur, det⟩ := ds
  constructor
  · intro h1 h2 h3 h4
    have h1f : det.find? (fun x => x.name = name) = none := by
      simpa [DatasetManager.get_dataset, ConfigData.datasets_detailed] using h1
    have herase : dirs.erase ("dataset/" ++ name) = dirs := List.erase_of_not_mem h4
    have herase2 : (dirs ++ ["dataset/" ++ name]).erase ("dataset/" ++ name) = dirs := by
      rw [List.erase_append_right _ h4]
      simp
    constructor
    · intro lo
      rw [DatasetManager.import_from_folder]
      rw [dataset_add_value p av cur det m pl tr cf tt name dty desc h1f h2]
      simp only [Bool.not_true, Bool.false_eq_true, if_false, herase]
      cases lo with
      | true =>
          simp only [if_true]
          rw [dataset_remove_added p av cur det m pl tr cf name ("dataset/" ++ name) _ desc
            h1f h2 h3 (dirs ++ ["dataset/" ++ name]) false]
          simp
      | false =>
          simp only [Bool.false_eq_true, if_false]
          rw [dataset_remove_added p av cur det m pl tr cf name ("dataset/" ++ name) _ desc
            h1f h2 h3 dirs false]
          simp
    · rw [DatasetManager.import_from_zip]
      rw [dataset_add_value p av cur det m pl tr cf tt name dty desc h1f h2]
      have hc : dirs.contains ("dataset/" ++ name) = false := by
        simpa using h4
      simp only [Bool.not_true, Bool.false_eq_true, if_false, hc]
      rw [dataset_remove_added p av cur det m pl tr cf name ("dataset/" ++ name) _ desc
        h1f h2 h3 (dirs ++ ["dataset/" ++ name]) true]
      simp [herase2]
  · intro d hd
    have hadd : DatasetManager.add_dataset ⟨p, some ⟨av, cur, det⟩, m, pl, tr, cf⟩
        tt name dty desc =
        (⟨p, some ⟨av, cur, det⟩, m, pl, tr, cf⟩, Except.error "Dataset already exists") := by
      simp [DatasetManager.add_dataset, hd]
    refine ⟨fun cfails lo => ?_, fun efails => ?_⟩
    · simp [DatasetManager.import_from_folder, hadd]
    · simp [DatasetManager.import_from_zip, hadd]

/-- Claim C3, witness: both rollback shapes and both duplicate rejections
at concrete inputs. -/
theorem claim_C3_witness :
    DatasetManager.import_from_folder emptyCfg3 [] .detection true true false "coco" none ""
        = (emptyCfg3, [], Except.error "Failed to copy dataset folder")
    ∧ DatasetManager.import_from_zip emptyCfg3 [] .detection true true "coco" none ""
        = (emptyCfg3, [], Except.error "Failed to extract ZIP file")
    ∧ DatasetManager.import_from_folder cocoConfig ["dataset/coco"] .detection true false
        false "coco" none "" =
        (cocoConfig, ["dataset/coco"], Except.error "Dataset already exists")
    ∧ DatasetManager.import_from_zip cocoConfig ["dataset/coco"] .detection true true "coco"
        none "" = (cocoConfig, ["dataset/coco"], Except.error "Dataset already exists") :=
  ⟨by
      have := ((claim_C3 ⟨[], "", []⟩ emptyCfg3 [] .detection "coco" none "" rfl).1
        (by decide) (by decide) (by decide) (by decide)).1 false
      simpa using this,
    ((claim_C3 ⟨[], "", []⟩ emptyCfg3 [] .detection "coco" none "" rfl).1
      (by decide) (by decide) (by decide) (by decide)).2,
    ((claim_C3 ⟨["coco"], "", [cocoInfo]⟩ cocoConfig ["dataset/coco"] .detection "coco" none
        "" rfl).2 cocoInfo (by decide)).1 false false,
    ((claim_C3 ⟨["coco"], "", [cocoInfo]⟩ cocoConfig ["dataset/coco"] .detection "coco" none
        "" rfl).2 cocoInfo (by decide)).2 true⟩

/-! ## Reconciliation lemmas (Claims C1, C2, C6) -/

theorem mem_model_details_remove (c : ConfigData) (f : String) (g : ProjectModelInfo) :
    g ∈ (c.remove_model f).model_details ↔ g ∈ c.model_details ∧ g.filename ≠ f := by
  cases hm : c.models with
  | none => simp [ConfigData.remove_model, hm, ConfigData.model_details]
  | some ms =>
      simp [ConfigData.remove_model, hm, ConfigData.model_details, List.mem_filter]

theorem mem_model_details_add (c : ConfigData) (i g : ProjectModelInfo) :
    g ∈ (c.add_model i).model_details ↔
      (g ∈ c.model_details ∧ g.filename ≠ i.filename) ∨ g = i := by
  cases hm : c.models with
  | none => simp [ConfigData.add_model, hm, ConfigData.model_details]
  | some ms =>
      simp [ConfigData.add_model, hm, ConfigData.model_details, List.mem_filter,
        List.mem_append]

theorem mem_fold_remove (L : List String) (c : ConfigData) (g : ProjectModelInfo) :
    g ∈ (L.foldl (fun c m => c.remove_model m) c).model_details ↔
      g ∈ c.model_details ∧ g.filename ∉ L := by
  induction L generalizing c with
  | nil => simp
  | cons a L ih =>
      rw [List.foldl_cons, ih, mem_model_details_remove]
      simp only [List.mem_cons, not_or, and_assoc]

theorem mem_fold_add (mk : String → ProjectModelInfo) (hmk : ∀ m, (mk m).filename = m)
    (L : List String) (hnd : L.Nodup) (c : ConfigData) (g : ProjectModelInfo) :
    g ∈ (L.foldl (fun c m => c.add_model (mk m)) c).model_details ↔
      (g ∈ c.model_details ∧ g.filename ∉ L) ∨ (∃ m ∈ L, g = mk m) := by
  induction L generalizing c with
  | nil => simp
  | cons a L ih =>
      have ha : a ∉ L := (List.nodup_cons.1 hnd).1
      have hL : L.Nodup := (List.nodup_cons.1 hnd).2
      rw [List.foldl_cons, ih hL, mem_model_details_add]
      constructor
      · rintro (⟨⟨hg, hne⟩ | rfl, hnot⟩ | ⟨m, hm, rfl⟩)
        · refine Or.inl ⟨hg, ?_⟩
          rw [hmk a] at hne
          simp [List.mem_cons, hne, hnot]
        · exact Or.inr ⟨a, List.mem_cons_self a L, rfl⟩
        · exact Or.inr ⟨m, List.mem_cons_of_mem a hm, rfl⟩
      · rintro (⟨hg, hnot⟩ | ⟨m, hm, rfl⟩)
        · rw [List.mem_cons, not_or] at hnot
          exact Or.inl ⟨Or.inl ⟨hg, by rw [hmk a]; exact hnot.1⟩, hnot.2⟩
        · rcases List.mem_cons.1 hm with rfl | hm2
          · exact Or.inl ⟨Or.inr rfl, by rw [hmk m]; exact ha⟩
          · exact Or.inr ⟨m, hm2, rfl⟩

theorem foldl_pair_fst (mk : String → ProjectModelInfo) (L : List String) (c : ConfigData)
    (r : List ProjectModelInfo) :
    (L.foldl (fun p m => (p.1.add_model (mk m), p.2 ++ [mk m])) (c, r)).1 =
      L.foldl (fun c m => c.add_model (mk m)) c := by
  induction L generalizing c r with
  | nil => rfl
  | cons a L ih => simp [List.foldl_cons, ih]

theorem foldl_pair_snd (mk : String → ProjectModelInfo) (L : List String) (c : ConfigData)
    (r : List ProjectModelInfo) :
    (L.foldl (fun p m => (p.1.add_model (mk m), p.2 ++ [mk m])) (c, r)).2 =
      r ++ L.map mk := by
  induction L generalizing c r with
  | nil => simp
  | cons a L ih => simp [List.foldl_cons, ih]

theorem byFilename_trans (a b c : ProjectModelInfo) (h1 : byFilename a b = true)
    (h2 : byFilename b c = true) : byFilename a c = true := by
  simp only [byFilename, decide_eq_true_eq] at *
  exact le_trans h1 h2

theorem byFilename_total (a b : ProjectModelInfo) :
    (byFilename a b || byFilename b a) = true := by
  simp only [byFilename, Bool.or_eq_true, decide_eq_true_eq]
  exact le_total a.filename b.filename

theorem pairwise_mergeSort_byFilename (l : List ProjectModelInfo) :
    List.Pairwise (fun a b => a.filename ≤ b.filename) (l.mergeSort byFilename) := by
  have h := List.sorted_mergeSort byFilename_trans byFilename_total l
  exact h.imp (fun hab => by simpa [byFilename] using hab)

theorem mem_pretrained_models_iff (cfg : ConfigData) (f : String) :
    f ∈ cfg.pretrained_models ↔
      ∃ g ∈ cfg.model_details, g.isPretrainedSource = true ∧ g.filename = f := by
  simp only [ConfigData.pretrained_models, List.mem_map, List.mem_filter]
  constructor
  · rintro ⟨g, ⟨hg, hs⟩, rfl⟩
    exact ⟨g, hg, hs, rfl⟩
  · rintro ⟨g, hg, hs, rfl⟩
    exact ⟨g, ⟨hg, hs⟩, rfl⟩

theorem mem_pretrainedStale_iff (cfg : ConfigData) (dir : List String) (f : String) :
    f ∈ pretrainedStale cfg dir ↔
      f ∈ cfg.pretrained_models ∧ f ∉ globPt dir := by
  simp [pretrainedStale, List.mem_filter, List.mem_dedup, List.elem_iff]

theorem mem_pretrainedUndeclared_iff (cfg : ConfigData) (dir : List String) (f : String) :
    f ∈ pretrainedUndeclared cfg dir ↔
      f ∈ globPt dir ∧ f ∉ cfg.pretrained_models := by
  simp [pretrainedUndeclared, List.mem_filter, List.mem_dedup, List.elem_iff]

theorem pretrainedUndeclared_nodup (cfg : ConfigData) (dir : List String) :
    (pretrainedUndeclared cfg dir).Nodup :=
  (List.nodup_dedup _).filter _

/-- The updated config returned by `get_pretrained_models` is the
removal fold followed by the addition fold. -/
theorem getPretrained_fst (cfg : ConfigData) (tt : TaskType) (dir : List String) :
    (ProjectModelManager.get_pretrained_models cfg tt dir).1 =
      (pretrainedUndeclared cfg dir).foldl
        (fun c m => c.add_model (autoPretrainedInfo m tt))
        ((pretrainedStale cfg dir).foldl (fun c m => c.remove_model m) cfg) := rfl

/-- Membership characterization of the config produced by
`get_pretrained_models`. -/
theorem getPretrained_mem_details (cfg : ConfigData) (tt : TaskType) (dir : List String)
    (g : ProjectModelInfo) :
    g ∈ (ProjectModelManager.get_pretrained_models cfg tt dir).1.model_details ↔
      (g ∈ cfg.model_details ∧ g.filename ∉ pretrainedStale cfg dir ∧
        g.filename ∉ pretrainedUndeclared cfg dir) ∨
      (∃ m ∈ pretrainedUndeclared cfg dir, g = autoPretrainedInfo m tt) := by
  rw [getPretrained_fst]
  rw [mem_fold_add (fun m => autoPretrainedInfo m tt) (fun m => rfl) _
    (pretrainedUndeclared_nodup cfg dir)]
  rw [mem_fold_remove]
  simp [and_assoc]

/-- The returned list of `get_pretrained_models` is the sort of the
filter of the updated config. -/
theorem getPretrained_snd_eq (cfg : ConfigData) (tt : TaskType) (dir : List String) :
    (ProjectModelManager.get_pretrained_models cfg tt dir).2.2 =
      (((ProjectModelManager.get_pretrained_models cfg tt dir).1).model_details.filter
        (fun m => m.isPretrainedSource && ((globPt dir).dedup).contains m.filename)).mergeSort
        byFilename := rfl

/-- The save flag of `get_pretrained_models`. -/
theorem getPretrained_didSave (cfg : ConfigData) (tt : TaskType) (dir : List String) :
    (ProjectModelManager.get_pretrained_models cfg tt dir).2.1 =
      (!(pretrainedStale cfg dir).isEmpty || !(pretrainedUndeclared cfg dir).isEmpty) := rfl

theorem getPretrained_pretrained_subset_glob (cfg : ConfigData) (tt : TaskType)
    (dir : List String) :
    ∀ g ∈ (ProjectModelManager.get_pretrained_models cfg tt dir).1.model_details,
      g.isPretrainedSource = true → g.filename ∈ globPt dir := by
  intro g hg hsrc
  rw [getPretrained_mem_details] at hg
  rcases hg with ⟨hgmem, hstale, _⟩ | ⟨m, hm, rfl⟩
  · by_contra hnotglob
    exact hstale ((mem_pretrainedStale_iff cfg dir _).2
      ⟨(mem_pretrained_models_iff cfg _).2 ⟨g, hgmem, hsrc, rfl⟩, hnotglob⟩)
  · exact ((mem_pretrainedUndeclared_iff cfg dir m).1 hm).1

theorem getPretrained_covers (cfg : ConfigData) (tt : TaskType) (dir : List String) :
    ∀ f ∈ globPt dir,
      ∃ g ∈ (ProjectModelManager.get_pretrained_models cfg tt dir).1.model_details,
        g.isPretrainedSource = true ∧ g.filename = f := by
  intro f hf
  by_cases hpm : f ∈ cfg.pretrained_models
  · obtain ⟨g0, hg0, hsrc, rfl⟩ := (mem_pretrained_models_iff cfg f).1 hpm
    refine ⟨g0, ?_, hsrc, rfl⟩
    rw [getPretrained_mem_details]
    refine Or.inl ⟨hg0, ?_, ?_⟩
    · rw [mem_pretrainedStale_iff]
      rintro ⟨-, hnope⟩
      exact hnope hf
    · rw [mem_pretrainedUndeclared_iff]
      rintro ⟨-, hnope⟩
      exact hnope hpm
  · refine ⟨autoPretrainedInfo f tt, ?_, rfl, rfl⟩
    rw [getPretrained_mem_details]
    exact Or.inr ⟨f, (mem_pretrainedUndeclared_iff cfg dir f).2 ⟨hf, hpm⟩, rfl⟩

theorem mem_trainedPresent_iff (cfg : ConfigData) (dir : List String)
    (g : ProjectModelInfo) :
    g ∈ trainedPresent cfg dir ↔
      g ∈ cfg.model_details ∧ g.source = "plan_created" ∧ g.filename ∈ globPt dir := by
  simp [trainedPresent, List.mem_filter, List.mem_dedup, List.elem_iff, and_assoc]

theorem mem_trainedUndeclared_iff (cfg : ConfigData) (dir : List String) (f : String) :
    f ∈ trainedUndeclared cfg dir ↔
      f ∈ globPt dir ∧
        ∀ g ∈ cfg.model_details, ¬(g.source = "plan_created" ∧ g.filename = f) := by
  constructor
  · intro hf
    rw [trainedUndeclared, List.mem_filter] at hf
    obtain ⟨hfg0, hnc⟩ := hf
    rw [List.mem_dedup] at hfg0
    refine ⟨hfg0, ?_⟩
    rintro g hg ⟨hsrc, hfn⟩
    have hmem : f ∈ (trainedPresent cfg dir).map (fun x => x.filename) :=
      List.mem_map.2 ⟨g, (mem_trainedPresent_iff cfg dir g).2 ⟨hg, hsrc, hfn ▸ hfg0⟩, hfn⟩
    have hnot : f ∉ ((trainedPresent cfg dir).map (fun x => x.filename)).dedup := by
      simpa [List.elem_iff] using hnc
    exact hnot (List.mem_dedup.2 hmem)
  · rintro ⟨hfg0, hall⟩
    rw [trainedUndeclared, List.mem_filter]
    refine ⟨List.mem_dedup.2 hfg0, ?_⟩
    have hnot : f ∉ (trainedPresent cfg dir).map (fun x => x.filename) := by
      intro hmem
      obtain ⟨g, hg, hfn⟩ := List.mem_map.1 hmem
      obtain ⟨hgmem, hsrc, -⟩ := (mem_trainedPresent_iff cfg dir g).1 hg
      exact hall g hgmem ⟨hsrc, hfn⟩
    simpa [List.elem_iff, List.mem_dedup] using hnot

theorem trainedUndeclared_nodup (cfg : ConfigData) (dir : List String) :
    (trainedUndeclared cfg dir).Nodup :=
  (List.nodup_dedup _).filter _

/-- The updated config returned by `get_trained_models` is the addition
fold (no removals happen there). -/
theorem getTrained_fst (cfg : ConfigData) (tt : TaskType) (dir : List String) :
    (ProjectModelManager.get_trained_models cfg tt dir).1 =
      (trainedUndeclared cfg dir).foldl
        (fun c m => c.add_model (autoTrainedInfo m tt)) cfg :=
  foldl_pair_fst (fun m => autoTrainedInfo m tt) (trainedUndeclared cfg dir) cfg
    (trainedPresent cfg dir)

/-- The returned list of `get_trained_models`. -/
theorem getTrained_snd (cfg : ConfigData) (tt : TaskType) (dir : List String) :
    (ProjectModelManager.get_trained_models cfg tt dir).2.2 =
      (trainedPresent cfg dir ++
        (trainedUndeclared cfg dir).map (fun m => autoTrainedInfo m tt)).mergeSort
        byFilename := by
  show ((trainedUndeclared cfg dir).foldl _ (cfg, trainedPresent cfg dir)).2.mergeSort
      byFilename = _
  rw [foldl_pair_snd (fun m => autoTrainedInfo m tt)]

/-- The save flag of `get_trained_models`. -/
theorem getTrained_didSave (cfg : ConfigData) (tt : TaskType) (dir : List String) :
    (ProjectModelManager.get_trained_models cfg tt dir).2.1 =
      !(trainedUndeclared cfg dir).isEmpty := rfl

/-- The updated config returned by `_sync_trained_models`. -/
theorem syncTrained_fst (cfg : ConfigData) (dir : List String) :
    (ProjectModelManager.sync_trained_models cfg dir).1 =
      (trainedStale cfg dir).foldl (fun c m => c.remove_model m) cfg := rfl

theorem mem_trainedStale_iff (cfg : ConfigData) (dir : List String) (f : String) :
    f ∈ trainedStale cfg dir ↔
      (∃ g ∈ cfg.model_details, g.source = "plan_created" ∧ g.filename = f) ∧
        f ∉ globPt dir := by
  simp only [trainedStale, List.mem_filter, List.mem_dedup, List.mem_map,
    Bool.not_eq_true', ← Bool.not_eq_true, List.elem_iff]
  constructor
  · rintro ⟨⟨g, hg, rfl⟩, hnc⟩
    exact ⟨⟨g, hg.1, by simpa using hg.2, rfl⟩, hnc⟩
  · rintro ⟨⟨g, hg, hsrc, rfl⟩, hh⟩
    exact ⟨⟨g, ⟨hg, by simpa using hsrc⟩, rfl⟩, hh⟩

/-! ## Claim C1 -/

/-- Claim C1, counterexample: `get_trained_models` does *not* remove a
`plan_created` config entry whose backing file is gone — with an empty
`model/` directory the stale `ghost.pt` record survives the call
untouched (the call returns the config unchanged), refuting the claim for
the trained bucket. -/
theorem claim_C1_counterexample :
    ProjectModelManager.get_trained_models ghostTrainedConfig .detection [] =
        (ghostTrainedConfig, false, [])
    ∧ ghostTrained ∈ ghostTrainedConfig.model_details
    ∧ ghostTrained.source = "plan_created"
    ∧ ghostTrained.filename ∉ globPt ([] : List String) := by
  refine ⟨?_, by decide, rfl, by decide⟩
  have hp : trainedPresent ghostTrainedConfig [] = [] := by decide
  have hu : trainedUndeclared ghostTrainedConfig [] = [] := by decide
  unfold ProjectModelManager.get_trained_models
  simp [hp, hu, List.mergeSort_nil]

/-- Claim C1, amended: `get_pretrained_models` removes from the config
every record whose filename has a pretrained-bucket entry with no backing
file in `pretrain/`; for the trained bucket the same removal is performed
only by the manager's initialization sync (`_sync_trained_models`), not
by `get_trained_models` (see the counterexample). -/
theorem claim_C1_amended :
    (∀ (cfg : ConfigData) (tt : TaskType) (dir : List String) (f : String),
      (∃ g ∈ cfg.model_details, g.isPretrainedSource = true ∧ g.filename = f) →
      f ∉ globPt dir →
      ∀ g ∈ (ProjectModelManager.get_pretrained_models cfg tt dir).1.model_details,
        g.filename ≠ f)
    ∧ (∀ (cfg : ConfigData) (dir : List String) (f : String),
      (∃ g ∈ cfg.model_details, g.source = "plan_created" ∧ g.filename = f) →
      f ∉ globPt dir →
      ∀ g ∈ (ProjectModelManager.sync_trained_models cfg dir).1.model_details,
        g.filename ≠ f) := by
  constructor
  · intro cfg tt dir f hex hf g hg heq
    rw [getPretrained_mem_details] at hg
    rcases hg with ⟨hgmem, hstale, -⟩ | ⟨m, hm, rfl⟩
    · apply hstale
      rw [heq]
      exact (mem_pretrainedStale_iff cfg dir f).2
        ⟨(mem_pretrained_models_iff cfg f).2 hex, hf⟩
    · have hmf : m ∈ globPt dir := ((mem_pretrainedUndeclared_iff cfg dir m).1 hm).1
      rw [show (autoPretrainedInfo m tt).filename = m from rfl] at heq
      rw [heq] at hmf
      exact hf hmf
  · intro cfg dir f hex hf g hg heq
    rw [syncTrained_fst, mem_fold_remove] at hg
    apply hg.2
    rw [heq]
    exact (mem_trainedStale_iff cfg dir f).2 ⟨hex, hf⟩

/-- Claim C1, witness for the amended theorem: a stale pretrained entry
disappears from the config on a list call, and the init-time sync removes
a stale trained entry. -/
theorem claim_C1_amended_witness :
    (∀ g ∈ (ProjectModelManager.get_pretrained_models ghostConfig .detection
        []).1.model_details, g.filename ≠ "ghost.pt")
    ∧ (∀ g ∈ (ProjectModelManager.sync_trained_models ghostTrainedConfig
        []).1.model_details, g.filename ≠ "ghost.pt") :=
  ⟨claim_C1_amended.1 ghostConfig .detection [] "ghost.pt"
      ⟨ghostInfo, by decide, by decide, by decide⟩ (by decide),
    claim_C1_amended.2 ghostTrainedConfig [] "ghost.pt"
      ⟨ghostTrained, by decide, by decide, by decide⟩ (by decide)⟩

/-! ## Claim C2 -/

/-- Claim C2: for both buckets, every list call adds a synthesized record
(derived display name, project task type, `imported` resp. `plan_created`
source) for each file present on disk but absent from the config, both to
the config and to the returned list; whenever such a file exists the call
persists the config; and the returned list mentions exactly the filenames
present on disk, sorted by filename. -/
theorem claim_C2 (cfg : ConfigData) (tt : TaskType) (dir : List String) :
    ((∀ f, f ∈ globPt dir → f ∉ cfg.pretrained_models →
        autoPretrainedInfo f tt ∈
            (ProjectModelManager.get_pretrained_models cfg tt dir).1.model_details
        ∧ autoPretrainedInfo f tt ∈
            (ProjectModelManager.get_pretrained_models cfg tt dir).2.2
        ∧ (ProjectModelManager.get_pretrained_models cfg tt dir).2.1 = true)
    ∧ (∀ f, (∃ g ∈ (ProjectModelManager.get_pretrained_models cfg tt dir).2.2,
          g.filename = f) ↔ f ∈ globPt dir)
    ∧ List.Pairwise (fun a b => a.filename ≤ b.filename)
        (ProjectModelManager.get_pretrained_models cfg tt dir).2.2)
    ∧ ((∀ f, f ∈ globPt dir →
        (∀ g ∈ cfg.model_details, ¬(g.source = "plan_created" ∧ g.filename = f)) →
        autoTrainedInfo f tt ∈
            (ProjectModelManager.get_trained_models cfg tt dir).1.model_details
        ∧ autoTrainedInfo f tt ∈ (ProjectModelManager.get_trained_models cfg tt dir).2.2
        ∧ (ProjectModelManager.get_trained_models cfg tt dir).2.1 = true)
    ∧ (∀ f, (∃ g ∈ (ProjectModelManager.get_trained_models cfg tt dir).2.2,
          g.filename = f) ↔ f ∈ globPt dir)
    ∧ List.Pairwise (fun a b => a.filename ≤ b.filename)
        (ProjectModelManager.get_trained_models cfg tt dir).2.2) := by
  refine ⟨⟨?_, ?_, ?_⟩, ?_, ?_, ?_⟩
  · -- pretrained: synthesized entries
    intro f hf hnpm
    have hund : f ∈ pretrainedUndeclared cfg dir :=
      (mem_pretrainedUndeclared_iff cfg dir f).2 ⟨hf, hnpm⟩
    have hdet : autoPretrainedInfo f tt ∈
        (ProjectModelManager.get_pretrained_models cfg tt dir).1.model_details :=
      (getPretrained_mem_details cfg tt dir _).2 (Or.inr ⟨f, hund, rfl⟩)
    refine ⟨hdet, ?_, ?_⟩
    · rw [getPretrained_snd_eq, List.mem_mergeSort, List.mem_filter]
      refine ⟨hdet, ?_⟩
      simp [autoPretrainedInfo, ProjectModelInfo.isPretrainedSource, List.elem_iff,
        List.mem_dedup, hf]
    · rw [getPretrained_didSave]
      cases hu : pretrainedUndeclared cfg dir with
      | nil => exact absurd hu (List.ne_nil_of_mem hund)
      | cons a l => simp
  · -- pretrained: exact representation of the disk state
    intro f
    constructor
    · rintro ⟨g, hg, rfl⟩
      rw [getPretrained_snd_eq, List.mem_mergeSort, List.mem_filter] at hg
      have hb := hg.2
      rw [Bool.and_eq_true] at hb
      have := hb.2
      rwa [List.elem_iff, List.mem_dedup] at this
    · intro hf
      obtain ⟨g, hgdet, hsrc, hfn⟩ := getPretrained_covers cfg tt dir f hf
      refine ⟨g, ?_, hfn⟩
      rw [getPretrained_snd_eq, List.mem_mergeSort, List.mem_filter]
      have hmem : g.filename ∈ globPt dir := by rw [hfn]; exact hf
      exact ⟨hgdet, by simp [hsrc, List.elem_iff, List.mem_dedup, hmem]⟩
  · rw [getPretrained_snd_eq]
    exact pairwise_mergeSort_byFilename _
  · -- trained: synthesized entries
    intro f hf hnone
    have hund : f ∈ trainedUndeclared cfg dir :=
      (mem_trainedUndeclared_iff cfg dir f).2 ⟨hf, hnone⟩
    have hdet : autoTrainedInfo f tt ∈
        (ProjectModelManager.get_trained_models cfg tt dir).1.model_details := by
      rw [getTrained_fst]
      rw [mem_fold_add (fun m => autoTrainedInfo m tt) (fun m => rfl) _
        (trainedUndeclared_nodup cfg dir)]
      exact Or.inr ⟨f, hund, rfl⟩
    refine ⟨hdet, ?_, ?_⟩
    · rw [getTrained_snd, List.mem_mergeSort, List.mem_append]
      exact Or.inr (List.mem_map.2 ⟨f, hund, rfl⟩)
    · rw [getTrained_didSave]
      cases hu : trainedUndeclared cfg dir with
      | nil => exact absurd hu (List.ne_nil_of_mem hund)
      | cons a l => simp
  · -- trained: exact representation of the disk state
    intro f
    constructor
    · rintro ⟨g, hg, rfl⟩
      rw [getTrained_snd, List.mem_mergeSort, List.mem_append] at hg
      rcases hg with hg | hg
      · exact ((mem_trainedPresent_iff cfg dir g).1 hg).2.2
      · obtain ⟨m, hm, rfl⟩ := List.mem_map.1 hg
        exact ((mem_trainedUndeclared_iff cfg dir m).1 hm).1
    · intro hf
      by_cases hex : ∃ g ∈ cfg.model_details, g.source = "plan_created" ∧ g.filename = f
      · obtain ⟨g, hg, hsrc, hfn⟩ := hex
        refine ⟨g, ?_, hfn⟩
        rw [getTrained_snd, List.mem_mergeSort, List.mem_append]
        exact Or.inl ((mem_trainedPresent_iff cfg dir g).2
          ⟨hg, hsrc, by rw [hfn]; exact hf⟩)
      · have hnone : ∀ g ∈ cfg.model_details,
            ¬(g.source = "plan_created" ∧ g.filename = f) :=
          fun g hg hc => hex ⟨g, hg, hc.1, hc.2⟩
        refine ⟨autoTrainedInfo f tt, ?_, rfl⟩
        rw [getTrained_snd, List.mem_mergeSort, List.mem_append]
        exact Or.inr (List.mem_map.2
          ⟨f, (mem_trainedUndeclared_iff cfg dir f).2 ⟨hf, hnone⟩, rfl⟩)
  · rw [getTrained_snd]
    exact pairwise_mergeSort_byFilename _

/-- Claim C2, witness: a file dropped into each bucket directory outside
the API shows up as a synthesized entry in the returned list, and the
call persists the config. -/
theorem claim_C2_witness :
    autoPretrainedInfo "extra.pt" .detection ∈
        (ProjectModelManager.get_pretrained_models emptyConfig .detection ["extra.pt"]).2.2
    ∧ (ProjectModelManager.get_pretrained_models emptyConfig .detection ["extra.pt"]).2.1
        = true
    ∧ autoTrainedInfo "extra.pt" .detection ∈
        (ProjectModelManager.get_trained_models emptyConfig .detection ["extra.pt"]).2.2 :=
  ⟨((claim_C2 emptyConfig .detection ["extra.pt"]).1.1 "extra.pt" (by decide)
      (by decide)).2.1,
    ((claim_C2 emptyConfig .detection ["extra.pt"]).1.1 "extra.pt" (by decide)
      (by decide)).2.2,
    ((claim_C2 emptyConfig .detection ["extra.pt"]).2.1 "extra.pt" (by decide)
      (by decide)).2.1⟩

/-! ## Claim C6 -/

/-- When the reconciliation finds nothing stale and nothing undeclared,
`get_pretrained_models` returns the config unchanged, does not save, and
only filters and sorts. -/
theorem getPretrained_eq_of_no_diff (cfg : ConfigData) (tt : TaskType) (dir : List String)
    (h1 : pretrainedStale cfg dir = []) (h2 : pretrainedUndeclared cfg dir = []) :
    ProjectModelManager.get_pretrained_models cfg tt dir =
      (cfg, false,
        (cfg.model_details.filter
          (fun m => m.isPretrainedSource && ((globPt dir).dedup).contains m.filename)).mergeSort
          byFilename) := by
  unfold ProjectModelManager.get_pretrained_models
  simp only [h1, h2, List.foldl_nil, List.isEmpty_nil, Bool.not_true, Bool.or_self]

/-- Claim C6: a second `get_pretrained_models` call with no intervening
filesystem change returns the same list, does not change the config, and
does not persist it again. -/
theorem claim_C6 (cfg : ConfigData) (tt : TaskType) (dir : List String) :
    ProjectModelManager.get_pretrained_models
        (ProjectModelManager.get_pretrained_models cfg tt dir).1 tt dir =
      ((ProjectModelManager.get_pretrained_models cfg tt dir).1, false,
        (ProjectModelManager.get_pretrained_models cfg tt dir).2.2) := by
  have h1 : pretrainedStale (ProjectModelManager.get_pretrained_models cfg tt dir).1 dir
      = [] := by
    refine List.filter_eq_nil_iff.2 ?_
    intro a ha
    rw [List.mem_dedup] at ha
    obtain ⟨g, hg, hsrc, rfl⟩ :=
      (mem_pretrained_models_iff (ProjectModelManager.get_pretrained_models cfg tt dir).1
        _).1 ha
    have hglob := getPretrained_pretrained_subset_glob cfg tt dir g hg hsrc
    simp [List.elem_iff, List.mem_dedup, hglob]
  have h2 : pretrainedUndeclared (ProjectModelManager.get_pretrained_models cfg tt dir).1
      dir = [] := by
    refine List.filter_eq_nil_iff.2 ?_
    intro a ha
    rw [List.mem_dedup] at ha
    obtain ⟨g, hgdet, hsrc, hfn⟩ := getPretrained_covers cfg tt dir a ha
    have : a ∈ (ProjectModelManager.get_pretrained_models cfg tt dir).1.pretrained_models :=
      (mem_pretrained_models_iff _ _).2 ⟨g, hgdet, hsrc, hfn⟩
    simp [List.elem_iff, List.mem_dedup, this]
  rw [getPretrained_eq_of_no_diff _ tt dir h1 h2, getPretrained_snd_eq cfg tt dir]

end YoloFlow
